import Mathlib

/-!
Shallow embedding of the flog log generator (package `generator`, file
`flog.go`), together with models of the writer handles it obtains from the
Go standard library.  Conventions:

* Go strings are modelled as Lean `String`s viewed as character sequences;
  Go `len` on the ASCII data flog produces coincides with `String.length`.
* Go `int` is modelled as `Int`.
* `NewLog(option.Format, delta)` is abstracted by a parameter
  `newLog : Nat → String` giving the line produced at each iteration: the
  format is fixed for a run and `delta` is `iteration * sleep`, so the line
  is a function of the iteration index.  The individual format producers
  live outside the verified core.
* The effects of a run are recorded as a trace of events (writer opens,
  writes, closes, and the `<name> is created.` announcements).  The
  environment `Env` decides which writer-open and write system calls fail;
  `allOkEnv` is the failure-free environment.
* A method call on a nil `io.WriteCloser` interface value panics in Go; the
  model returns the result `GenResult.panicked` and stops the trace there.
-/

namespace Flog

/-- Observable effects of a run, in order of occurrence.  `openW` records a
`NewWriter` call and whether it produced a usable writer; `write` records a
`writer.Write` call (with the success flag that the Go code discards);
`close` records `writer.Close()`; `announce` records the
`fmt.Println(logFileName, "is created.")` status line. -/
inductive Event where
  | openW (file : String) (ok : Bool)
  | write (file : String) (data : String) (ok : Bool)
  | close (file : String)
  | announce (file : String)
  deriving DecidableEq, Repr

/-- How a run of `Generate` ends: normally, with the initial `NewWriter`
error returned, or by a Go panic (method call on a nil writer). -/
inductive GenResult where
  | ok
  | openFailed
  | panicked
  deriving DecidableEq, Repr

/-- The `Option` struct of the generator (the Go field `Type` is renamed
`LogType`, `Type` being a Lean keyword).  `Sleep` and `Overwrite` are
omitted: `Sleep` only feeds the synthetic clock consumed by the abstracted
line source, and `Overwrite` is never read by `Generate` or `NewWriter`. -/
structure GOption where
  Format : String
  Output : String
  LogType : String
  Number : Int
  Bytes : Int
  SplitBy : Int
  deriving DecidableEq, Repr

/-- Environment oracle: which `NewWriter` call (counted from 0) fails with
an OS error, and which `writer.Write` call (counted from 0) fails. -/
structure Env where
  openFails : Nat → Bool
  writeFails : Nat → Bool

/-- The failure-free environment. -/
def allOkEnv : Env := ⟨fun _ => false, fun _ => false⟩

/-- Mutable state of `Generate`: the split counter, the current file name,
whether the current writer is usable (false when a `NewWriter` call failed
or returned nil), the open/write call counters, and the event trace. -/
structure GenState where
  splitCount : Int
  logFileName : String
  writerOk : Bool
  openCalls : Nat
  writeCalls : Nat
  events : List Event
  deriving Repr

/-- Core of Go `path/filepath.Ext`: scan the path backwards; stop at a path
separator (`/` on linux); on the first `.` return it plus the characters
already scanned (`acc` holds them in original order). -/
def extAux : List Char → List Char → Option (List Char)
  | [], _ => none
  | c :: rest, acc =>
    if c = '/' then none
    else if c = '.' then some (c :: acc)
    else extAux rest (c :: acc)

/-- Go `filepath.Ext`: the suffix beginning at the final dot in the final
path element, or empty if there is none. -/
def filepathExt (path : String) : String :=
  match extAux path.data.reverse [] with
  | some ext => String.mk ext
  | none => ""

/-- Go `strings.TrimSuffix`. -/
def trimSuffix (s suffix : String) : String :=
  if suffix.data <:+ s.data then
    String.mk (s.data.take (s.data.length - suffix.data.length))
  else s

/-- Function `NewSplitFileName` from `flog.go`: stem + decimal count + extension. -/
def NewSplitFileName (path : String) (count : Int) : String :=
  let logFileNameExt := filepathExt path
  let pathWithoutExt := trimSuffix path logFileNameExt
  pathWithoutExt ++ toString count ++ logFileNameExt

/-- Whether the `NewWriter` call numbered `k` yields a usable writer:
`"stdout"` always returns `os.Stdout`; `"log"` and `"gz"` succeed unless
the environment fails the OS call; any other type returns a nil writer
(with a nil error). -/
def openOk (env : Env) (logType : String) (k : Nat) : Bool :=
  if logType = "stdout" then true
  else if logType = "log" ∨ logType = "gz" then !env.openFails k
  else false

/-- Whether the `NewWriter` call numbered `k` returns a non-nil error:
only the `"log"` and `"gz"` cases can (from `os.OpenFile` / `os.Create`);
the default case returns `(nil, nil)`. -/
def openErrs (env : Env) (logType : String) (k : Nat) : Bool :=
  if logType = "log" ∨ logType = "gz" then env.openFails k
  else false

/-- The rollover block shared by both loops of `Generate`: close and
announce the current file, derive the next name from the base output path
and the current split count, reopen (the returned error is discarded by
the Go code: `writer, _ = NewWriter(...)`), and increment the counter. -/
def rollover (env : Env) (opt : GOption) (st : GenState) : GenState :=
  let newName := NewSplitFileName opt.Output st.splitCount
  let ok := openOk env opt.LogType st.openCalls
  { splitCount := st.splitCount + 1
    logFileName := newName
    writerOk := ok
    openCalls := st.openCalls + 1
    writeCalls := st.writeCalls
    events := st.events ++
      [.close st.logFileName, .announce st.logFileName, .openW newName ok] }

/-- Record the `writer.Write([]byte(log + "\n"))` call of one iteration
(the Go code discards its results). -/
def writeStep (env : Env) (log : String) (st : GenState) : GenState :=
  { st with
    events := st.events ++
      [.write st.logFileName (log ++ "\n") (!env.writeFails st.writeCalls)]
    writeCalls := st.writeCalls + 1 }

/-- Body of one line-count iteration after the loop test: write the line,
then roll over when the type is not `"stdout"`, the threshold is positive,
and `line > option.SplitBy*splitCount`. -/
def lineStep (newLog : Nat → String) (env : Env) (opt : GOption)
    (line : Nat) (st : GenState) : GenState :=
  let st1 := writeStep env (newLog line) st
  if opt.LogType ≠ "stdout" ∧ 0 < opt.SplitBy ∧
      (line : Int) > opt.SplitBy * st1.splitCount
  then rollover env opt st1 else st1

/-- The line-count loop of `Generate`
(`for line := 0; line < option.Number; line++`), run for `rem` more
iterations starting at index `line`.  A write through a nil writer
(failed reopen or unknown type) panics. -/
def lineLoop (newLog : Nat → String) (env : Env) (opt : GOption) :
    Nat → Nat → GenState → GenResult × GenState
  | 0, _, st => (.ok, st)
  | rem + 1, line, st =>
    if st.writerOk then
      lineLoop newLog env opt rem (line + 1) (lineStep newLog env opt line st)
    else (.panicked, st)

/-- Body of one byte-count iteration after the loop test: write the line,
add `len(log)` to the accumulator (`bytes1` is the updated value), then
roll over when the type is not `"stdout"`, the threshold is positive, and
`bytes > option.SplitBy*splitCount+1`. -/
def byteStep (newLog : Nat → String) (env : Env) (opt : GOption)
    (iter : Nat) (bytes1 : Int) (st : GenState) : GenState :=
  let st1 := writeStep env (newLog iter) st
  if opt.LogType ≠ "stdout" ∧ 0 < opt.SplitBy ∧
      bytes1 > opt.SplitBy * st1.splitCount + 1
  then rollover env opt st1 else st1

/-- The byte-count loop of `Generate` (`for bytes < option.Bytes`), with
explicit fuel (`none` when the fuel runs out: the Go loop can run forever
when every produced line is empty). -/
def byteLoop (newLog : Nat → String) (env : Env) (opt : GOption) :
    Nat → Nat → Int → GenState → Option (GenResult × GenState)
  | 0, _, _, _ => none
  | fuel + 1, iter, bytes, st =>
    if bytes < opt.Bytes then
      if st.writerOk then
        byteLoop newLog env opt fuel (iter + 1)
          (bytes + ((newLog iter).length : Int))
          (byteStep newLog env opt iter
            (bytes + ((newLog iter).length : Int)) st)
      else some (.panicked, st)
    else some (.ok, st)

/-- The epilogue of `Generate`: for non-`"stdout"` types, close the final
writer and announce it (a `Close` on a nil writer panics). -/
def finalize (opt : GOption) (st : GenState) : GenResult × List Event :=
  if opt.LogType = "stdout" then (.ok, st.events)
  else if st.writerOk then
    (.ok, st.events ++ [.close st.logFileName, .announce st.logFileName])
  else (.panicked, st.events)

/-- State right after the prologue of `Generate`: `splitCount := 1`, the
base output path as the current name, and the initial `NewWriter` call
performed. -/
def initState (env : Env) (opt : GOption) : GenState :=
  { splitCount := 1, logFileName := opt.Output,
    writerOk := openOk env opt.LogType 0,
    openCalls := 1, writeCalls := 0,
    events := [.openW opt.Output (openOk env opt.LogType 0)] }

/-- Function `Generate` from `flog.go`, as a trace transformer.  The initial
`NewWriter` error is the only one propagated (`if err != nil return err`);
`option.Bytes == 0` selects the line-count loop, otherwise the byte-count
loop runs (with fuel). -/
def Generate (newLog : Nat → String) (env : Env) (fuel : Nat)
    (opt : GOption) : Option (GenResult × List Event) :=
  if openErrs env opt.LogType 0 then some (.openFailed, [])
  else if opt.Bytes = 0 then
    match lineLoop newLog env opt opt.Number.toNat 0 (initState env opt) with
    | (.ok, st) => some (finalize opt st)
    | (r, st) => some (r, st.events)
  else
    match byteLoop newLog env opt fuel 0 0 (initState env opt) with
    | none => none
    | some (.ok, st) => some (finalize opt st)
    | some (r, st) => some (r, st.events)

/-- The data of the write events of a trace, in order. -/
def writtenData (evs : List Event) : List String :=
  evs.filterMap fun e =>
    match e with
    | .write _ d _ => some d
    | _ => none

/-- The files announced as created by a trace, in order. -/
def announces (evs : List Event) : List String :=
  evs.filterMap fun e =>
    match e with
    | .announce f => some f
    | _ => none

/-- The files closed by a trace, in order. -/
def closes (evs : List Event) : List String :=
  evs.filterMap fun e =>
    match e with
    | .close f => some f
    | _ => none

/-- The `NewWriter` calls of a trace (file name and success). -/
def opens (evs : List Event) : List (String × Bool) :=
  evs.filterMap fun e =>
    match e with
    | .openW f ok => some (f, ok)
    | _ => none

/-- Number of files announced by a (possibly failed) run. -/
def announceCountOf : Option (GenResult × List Event) → Nat
  | some (_, evs) => (announces evs).length
  | none => 0

/-- Status flags of a file-open call, named after the `os.O_*` constants. -/
structure OpenFlags where
  rdwr : Bool
  append : Bool
  create : Bool
  trunc : Bool
  deriving DecidableEq, Repr

/-- The flags `NewWriter` passes for the `"log"` type:
`os.O_RDWR|os.O_APPEND` — note the absence of `os.O_CREATE`. -/
def logOpenFlags : OpenFlags :=
  { rdwr := true, append := true, create := false, trunc := false }

/-- The flags of Go `os.Create`, used for the `"gz"` type:
`O_RDWR|O_CREATE|O_TRUNC`. -/
def createFlags : OpenFlags :=
  { rdwr := true, append := false, create := true, trunc := true }

/-- Condition of a destination path at open time. -/
inductive FileCond where
  | absent
  | present
  | inaccessible
  deriving DecidableEq, Repr

/-- POSIX model of whether `open` succeeds: an existing accessible file
always opens; an absent file opens only when the create flag is set; an
inaccessible path (permission denied, bad directory) never opens. -/
def openSucceeds (cond : FileCond) (f : OpenFlags) : Bool :=
  match cond with
  | .present => true
  | .absent => f.create
  | .inaccessible => false

/-- Which value/system call each branch of `NewWriter` produces:
`os.Stdout` itself, `os.OpenFile(name, flags, perm)`, a `gzip.Writer` over
`os.Create(name)`, or the default branch's `(nil, nil)` pair. -/
inductive NWResult where
  | stdoutW
  | openFileW (name : String) (flags : OpenFlags) (perm : Nat)
  | gzipOverCreateW (name : String)
  | nilNil
  deriving DecidableEq, Repr

/-- The `switch logType` dispatch of `NewWriter` in `flog.go`. -/
def NewWriterCall (logType name : String) : NWResult :=
  if logType = "stdout" then .stdoutW
  else if logType = "log" then .openFileW name logOpenFlags 0o666
  else if logType = "gz" then .gzipOverCreateW name
  else .nilNil

/-- A file descriptor as `os.File` exposes it: its name and whether it has
been closed. -/
structure FileDesc where
  name : String
  closed : Bool
  deriving DecidableEq, Repr

/-- Model of `os.File.Close`: closes the descriptor.  `os.Stdout` is an `os.File`,
so this applies to the handle `NewWriter` returns for `"stdout"` too. -/
def FileDesc.closeFd (fd : FileDesc) : FileDesc := { fd with closed := true }

/-- The process's standard output stream, as the `os.File` value
`os.Stdout` that `NewWriter` returns unwrapped for the `"stdout"` type. -/
def stdoutFile : FileDesc := { name := "/dev/stdout", closed := false }

/-- Model of the `gzip.Writer` handle `NewWriter` returns for `"gz"`: the
underlying descriptor from `os.Create`, the compressed data buffered in
the gzip layer (`pending`), the data already flushed into the file, and
whether the gzip layer has been closed. -/
structure GzWriter where
  fd : FileDesc
  pending : List String
  flushed : List String
  closed : Bool
  deriving DecidableEq, Repr

/-- Model of `gzip.NewWriter(os.Create(name))`: a fresh open file, empty buffer. -/
def GzWriter.new (name : String) : GzWriter :=
  { fd := { name := name, closed := false }, pending := [], flushed := [],
    closed := false }

/-- Model of `gzip.Writer.Write`: compresses and buffers the data. -/
def GzWriter.writeGz (w : GzWriter) (s : String) : GzWriter :=
  { w with pending := w.pending ++ [s] }

/-- Model of `gzip.Writer.Close` per its documented contract: flushes any unwritten
buffered data (and the gzip footer) to the underlying writer and closes
the gzip layer; it does not close the underlying `os.File`. -/
def GzWriter.closeGz (w : GzWriter) : GzWriter :=
  { w with pending := [], flushed := w.flushed ++ w.pending, closed := true }

/-- Declarative description of `filepath.Ext`: take the final path element
(the characters after the last `/`), and if it contains a dot, the
extension is that element from its last dot on; otherwise it is empty. -/
def specExt (p : String) : String :=
  let revElem := p.data.reverse.takeWhile (fun c => c ≠ '/')
  if '.' ∈ revElem then
    String.mk (((revElem.takeWhile (fun c => c ≠ '.')) ++ ['.']).reverse)
  else ""

/-! ## Trace bookkeeping lemmas -/

@[simp] lemma writtenData_append (a b : List Event) :
    writtenData (a ++ b) = writtenData a ++ writtenData b :=
  List.filterMap_append ..

@[simp] lemma announces_append (a b : List Event) :
    announces (a ++ b) = announces a ++ announces b :=
  List.filterMap_append ..

@[simp] lemma closes_append (a b : List Event) :
    closes (a ++ b) = closes a ++ closes b :=
  List.filterMap_append ..

@[simp] lemma opens_append (a b : List Event) :
    opens (a ++ b) = opens a ++ opens b :=
  List.filterMap_append ..

@[simp] lemma writtenData_write (f d : String) (ok : Bool) :
    writtenData [Event.write f d ok] = [d] := rfl

@[simp] lemma writtenData_rollEvents (f g : String) (ok : Bool) :
    writtenData [Event.close f, Event.announce f, Event.openW g ok] = [] := rfl

@[simp] lemma writtenData_finalEvents (f : String) :
    writtenData [Event.close f, Event.announce f] = [] := rfl

@[simp] lemma announces_write (f d : String) (ok : Bool) :
    announces [Event.write f d ok] = [] := rfl

@[simp] lemma announces_rollEvents (f g : String) (ok : Bool) :
    announces [Event.close f, Event.announce f, Event.openW g ok] = [f] := rfl

@[simp] lemma announces_finalEvents (f : String) :
    announces [Event.close f, Event.announce f] = [f] := rfl

@[simp] lemma closes_write (f d : String) (ok : Bool) :
    closes [Event.write f d ok] = [] := rfl

@[simp] lemma opens_write (f d : String) (ok : Bool) :
    opens [Event.write f d ok] = [] := rfl

@[simp] lemma writtenData_openW (f : String) (ok : Bool) :
    writtenData [Event.openW f ok] = [] := rfl

@[simp] lemma announces_openW (f : String) (ok : Bool) :
    announces [Event.openW f ok] = [] := rfl

@[simp] lemma closes_openW (f : String) (ok : Bool) :
    closes [Event.openW f ok] = [] := rfl

@[simp] lemma opens_openW (f : String) (ok : Bool) :
    opens [Event.openW f ok] = [(f, ok)] := rfl

@[simp] lemma closes_rollEvents (f g : String) (ok : Bool) :
    closes [Event.close f, Event.announce f, Event.openW g ok] = [f] := rfl

@[simp] lemma opens_rollEvents (f g : String) (ok : Bool) :
    opens [Event.close f, Event.announce f, Event.openW g ok] = [(g, ok)] := rfl

@[simp] lemma closes_finalEvents (f : String) :
    closes [Event.close f, Event.announce f] = [f] := rfl

@[simp] lemma opens_finalEvents (f : String) :
    opens [Event.close f, Event.announce f] = [] := rfl

/-! ## Division lemmas for the split counter -/

lemma div_succ_roll {t m : ℕ} (ht : 0 < t) (h : m % t = t - 1) :
    (m + 1) / t = m / t + 1 := by
  have h0 := Nat.div_add_mod m t
  have e2 : t * (m / t + 1) = t * (m / t) + t := by ring
  have e : m + 1 = t * (m / t + 1) := by omega
  rw [e, Nat.mul_div_cancel_left _ ht]

lemma div_succ_stay {t m : ℕ} (ht : 0 < t) (h : m % t ≠ t - 1) :
    (m + 1) / t = m / t := by
  have h0 := Nat.div_add_mod m t
  have hlt := Nat.mod_lt m ht
  have e : m + 1 = (m % t + 1) + t * (m / t) := by omega
  rw [e, Nat.add_mul_div_left _ _ ht, Nat.div_eq_of_lt (by omega), Nat.zero_add]

/-- The rollover comparison of the line-count loop, evaluated at the loop
invariant `splitCount = (line - 2) / t + 1`: it fires exactly at the
iterations after which the divisor steps. -/
lemma roll_cond_iff {t j : ℕ} (ht : 0 < t) :
    ((j : Int) > (t : Int) * (((j - 2) / t + 1 : ℕ) : Int)) ↔
      (2 ≤ j ∧ (j - 2) % t = t - 1) := by
  have hcast : ((j : Int) > (t : Int) * (((j - 2) / t + 1 : ℕ) : Int)) ↔
      (t * ((j - 2) / t + 1) < j) := by
    push_cast
    constructor
    · intro h
      exact_mod_cast h
    · intro h
      exact_mod_cast h
  rw [hcast]
  have h0 := Nat.div_add_mod (j - 2) t
  have hlt := Nat.mod_lt (j - 2) ht
  have e2 : t * ((j - 2) / t + 1) = t * ((j - 2) / t) + t := by ring
  rw [e2]
  omega

/-! ## Step lemmas for the generation loops -/

lemma rollover_writerOk (env : Env) (opt : GOption) (st : GenState)
    (hopen : ∀ k, openOk env opt.LogType k = true) :
    (rollover env opt st).writerOk = true := by
  simp [rollover, hopen]

@[simp] lemma rollover_splitCount (env : Env) (opt : GOption) (st : GenState) :
    (rollover env opt st).splitCount = st.splitCount + 1 := rfl

@[simp] lemma rollover_events (env : Env) (opt : GOption) (st : GenState) :
    (rollover env opt st).events = st.events ++
      [.close st.logFileName, .announce st.logFileName,
       .openW (NewSplitFileName opt.Output st.splitCount)
         (openOk env opt.LogType st.openCalls)] := rfl

@[simp] lemma writeStep_events (env : Env) (log : String) (st : GenState) :
    (writeStep env log st).events = st.events ++
      [.write st.logFileName (log ++ "\n") (!env.writeFails st.writeCalls)] :=
  rfl

@[simp] lemma writeStep_writerOk (env : Env) (log : String) (st : GenState) :
    (writeStep env log st).writerOk = st.writerOk := rfl

@[simp] lemma writeStep_splitCount (env : Env) (log : String) (st : GenState) :
    (writeStep env log st).splitCount = st.splitCount := rfl

lemma lineStep_writerOk (newLog : Nat → String) (env : Env) (opt : GOption)
    (line : Nat) (st : GenState)
    (hopen : ∀ k, openOk env opt.LogType k = true)
    (h : st.writerOk = true) :
    (lineStep newLog env opt line st).writerOk = true := by
  rw [lineStep]
  split
  · exact rollover_writerOk _ _ _ hopen
  · simp [h]

lemma lineStep_writtenData (newLog : Nat → String) (env : Env)
    (opt : GOption) (line : Nat) (st : GenState) :
    writtenData (lineStep newLog env opt line st).events =
      writtenData st.events ++ [newLog line ++ "\n"] := by
  rw [lineStep]
  split <;> simp [writtenData]

lemma byteStep_writerOk (newLog : Nat → String) (env : Env) (opt : GOption)
    (iter : Nat) (bytes1 : Int) (st : GenState)
    (hopen : ∀ k, openOk env opt.LogType k = true)
    (h : st.writerOk = true) :
    (byteStep newLog env opt iter bytes1 st).writerOk = true := by
  rw [byteStep]
  split
  · exact rollover_writerOk _ _ _ hopen
  · simp [h]

lemma byteStep_writtenData (newLog : Nat → String) (env : Env)
    (opt : GOption) (iter : Nat) (bytes1 : Int) (st : GenState) :
    writtenData (byteStep newLog env opt iter bytes1 st).events =
      writtenData st.events ++ [newLog iter ++ "\n"] := by
  rw [byteStep]
  split <;> simp [writtenData]

/-! ## Loop invariants -/

/-- When every writer open succeeds, the line-count loop finishes normally
and writes exactly its lines, each with one trailing terminator. -/
lemma lineLoop_writes (newLog : Nat → String) (env : Env) (opt : GOption)
    (hopen : ∀ k, openOk env opt.LogType k = true) :
    ∀ (rem line : Nat) (st : GenState), st.writerOk = true →
      (lineLoop newLog env opt rem line st).1 = .ok ∧
      (lineLoop newLog env opt rem line st).2.writerOk = true ∧
      writtenData (lineLoop newLog env opt rem line st).2.events =
        writtenData st.events ++
          (List.range' line rem).map (fun i => newLog i ++ "\n") := by
  intro rem
  induction rem with
  | zero => intro line st h; simp [lineLoop, h]
  | succ n ih =>
    intro line st h
    rw [lineLoop, if_pos h]
    obtain ⟨h1, h2, h3⟩ := ih (line + 1) (lineStep newLog env opt line st)
      (lineStep_writerOk newLog env opt line st hopen h)
    refine ⟨h1, h2, ?_⟩
    rw [h3, lineStep_writtenData, List.range'_succ]
    simp

/-- One line-count iteration keeps the invariant
`splitCount = (line - 2) / T + 1` and announces one file exactly when the
divisor steps. -/
lemma lineStep_split (newLog : Nat → String) (env : Env) (opt : GOption)
    (t : ℕ) (ht : 0 < t) (hsb : opt.SplitBy = (t : Int))
    (hTne : opt.LogType ≠ "stdout") (line : Nat) (st : GenState)
    (hsc : st.splitCount = (((line - 2) / t + 1 : ℕ) : Int)) :
    (lineStep newLog env opt line st).splitCount =
      ((((line + 1) - 2) / t + 1 : ℕ) : Int) ∧
    (announces (lineStep newLog env opt line st).events).length +
        (line - 2) / t =
      (announces st.events).length + ((line + 1) - 2) / t := by
  rw [lineStep]
  have hcond : (opt.LogType ≠ "stdout" ∧ 0 < opt.SplitBy ∧
      (line : Int) > opt.SplitBy *
        (writeStep env (newLog line) st).splitCount) ↔
      (2 ≤ line ∧ (line - 2) % t = t - 1) := by
    rw [writeStep_splitCount, hsc, hsb]
    constructor
    · rintro ⟨-, -, h3⟩
      exact (roll_cond_iff ht).1 h3
    · intro hr
      exact ⟨hTne, by exact_mod_cast ht, (roll_cond_iff ht).2 hr⟩
  by_cases hr : 2 ≤ line ∧ (line - 2) % t = t - 1
  · rw [if_pos (hcond.2 hr)]
    obtain ⟨hl2, hmod⟩ := hr
    have hdiv : ((line + 1) - 2) / t = (line - 2) / t + 1 := by
      have e : (line + 1) - 2 = (line - 2) + 1 := by omega
      rw [e, div_succ_roll ht hmod]
    constructor
    · rw [rollover_splitCount, writeStep_splitCount, hsc, hdiv]
      push_cast
      ring
    · rw [rollover_events, writeStep_events]
      simp only [← List.append_assoc, announces_append, announces_write,
        announces_rollEvents, List.append_nil, List.length_append,
        List.length_singleton, hdiv]
      omega
  · rw [if_neg (fun hc => hr (hcond.1 hc))]
    have hdiv : ((line + 1) - 2) / t = (line - 2) / t := by
      rcases Nat.lt_or_ge line 2 with hl | hl
      · have : line = 0 ∨ line = 1 := by omega
        rcases this with rfl | rfl <;> simp
      · have hmod : (line - 2) % t ≠ t - 1 := fun hm => hr ⟨hl, hm⟩
        have e : (line + 1) - 2 = (line - 2) + 1 := by omega
        rw [e, div_succ_stay ht hmod]
    constructor
    · rw [writeStep_splitCount, hsc, hdiv]
    · rw [writeStep_events]
      simp only [announces_append, announces_write, List.append_nil, hdiv]

/-- The line-count loop announces one file each time the split counter
advances: over the whole loop, `(line + rem - 2) / T - (line - 2) / T`
files. -/
lemma lineLoop_split (newLog : Nat → String) (env : Env) (opt : GOption)
    (t : ℕ) (ht : 0 < t) (hsb : opt.SplitBy = (t : Int))
    (hTne : opt.LogType ≠ "stdout")
    (hopen : ∀ k, openOk env opt.LogType k = true) :
    ∀ (rem line : Nat) (st : GenState), st.writerOk = true →
      st.splitCount = (((line - 2) / t + 1 : ℕ) : Int) →
      (lineLoop newLog env opt rem line st).1 = .ok ∧
      (lineLoop newLog env opt rem line st).2.writerOk = true ∧
      (announces (lineLoop newLog env opt rem line st).2.events).length +
          (line - 2) / t =
        (announces st.events).length + ((line + rem) - 2) / t := by
  intro rem
  induction rem with
  | zero => intro line st h hsc; simp [lineLoop, h]
  | succ n ih =>
    intro line st h hsc
    rw [lineLoop, if_pos h]
    obtain ⟨hs1, hs2⟩ := lineStep_split newLog env opt t ht hsb hTne line st hsc
    obtain ⟨h1, h2, h3⟩ := ih (line + 1) (lineStep newLog env opt line st)
      (lineStep_writerOk newLog env opt line st hopen h) hs1
    refine ⟨h1, h2, ?_⟩
    have e : line + (n + 1) = line + 1 + n := by omega
    rw [e]
    omega

/-- With type `"stdout"` an iteration is just the write: the rollover
guard's first conjunct is false. -/
lemma lineStep_stdout (newLog : Nat → String) (env : Env) (opt : GOption)
    (hT : opt.LogType = "stdout") (line : Nat) (st : GenState) :
    lineStep newLog env opt line st = writeStep env (newLog line) st := by
  rw [lineStep, if_neg]
  rintro ⟨hne, -, -⟩
  exact hne hT

lemma byteStep_stdout (newLog : Nat → String) (env : Env) (opt : GOption)
    (hT : opt.LogType = "stdout") (iter : Nat) (bytes1 : Int)
    (st : GenState) :
    byteStep newLog env opt iter bytes1 st = writeStep env (newLog iter) st := by
  rw [byteStep, if_neg]
  rintro ⟨hne, -, -⟩
  exact hne hT

/-- With type `"stdout"` the line-count loop never closes, announces, or
opens anything. -/
lemma lineLoop_stdout (newLog : Nat → String) (env : Env) (opt : GOption)
    (hT : opt.LogType = "stdout") :
    ∀ (rem line : Nat) (st : GenState), st.writerOk = true →
      (lineLoop newLog env opt rem line st).1 = .ok ∧
      (lineLoop newLog env opt rem line st).2.writerOk = true ∧
      announces (lineLoop newLog env opt rem line st).2.events =
        announces st.events ∧
      closes (lineLoop newLog env opt rem line st).2.events =
        closes st.events ∧
      opens (lineLoop newLog env opt rem line st).2.events =
        opens st.events := by
  intro rem
  induction rem with
  | zero => intro line st h; simp [lineLoop, h]
  | succ n ih =>
    intro line st h
    rw [lineLoop, if_pos h, lineStep_stdout newLog env opt hT]
    obtain ⟨h1, h2, h3, h4, h5⟩ := ih (line + 1) (writeStep env (newLog line) st)
      (by rw [writeStep_writerOk]; exact h)
    refine ⟨h1, h2, ?_, ?_, ?_⟩ <;>
      simp_all [writeStep_events, announces, closes, opens]

/-- With type `"stdout"` the byte-count loop never closes, announces, or
opens anything either. -/
lemma byteLoop_stdout (newLog : Nat → String) (env : Env) (opt : GOption)
    (hT : opt.LogType = "stdout") :
    ∀ (fuel iter : Nat) (bytes : Int) (st : GenState) (r : GenResult)
      (st2 : GenState), st.writerOk = true →
      byteLoop newLog env opt fuel iter bytes st = some (r, st2) →
      r = .ok ∧ st2.writerOk = true ∧
      announces st2.events = announces st.events ∧
      closes st2.events = closes st.events ∧
      opens st2.events = opens st.events := by
  intro fuel
  induction fuel with
  | zero => intro iter bytes st r st2 h hb; simp [byteLoop] at hb
  | succ n ih =>
    intro iter bytes st r st2 h hb
    rw [byteLoop] at hb
    by_cases hlt : bytes < opt.Bytes
    · rw [if_pos hlt, if_pos h, byteStep_stdout newLog env opt hT] at hb
      obtain ⟨h1, h2, h3, h4, h5⟩ := ih (iter + 1) _ (writeStep env (newLog iter) st)
        r st2 (by rw [writeStep_writerOk]; exact h) hb
      refine ⟨h1, h2, ?_, ?_, ?_⟩ <;>
        simp_all [writeStep_events, announces, closes, opens]
    · rw [if_neg hlt] at hb
      obtain ⟨h1, h2⟩ := Prod.mk.injEq .. ▸ Option.some.injEq .. ▸ hb
      subst h1
      subst h2
      exact ⟨rfl, h, rfl, rfl, rfl⟩

/-- What a terminating run of the byte-count loop produces: the guard is
checked before each iteration, so every line is written while the
accumulator is still below the target, and on exit the accumulator has
reached it. -/
lemma byteLoop_spec (newLog : Nat → String) (env : Env) (opt : GOption)
    (hopen : ∀ k, openOk env opt.LogType k = true) :
    ∀ (fuel iter : Nat) (bytes : Int) (st : GenState) (r : GenResult)
      (st2 : GenState), st.writerOk = true →
      byteLoop newLog env opt fuel iter bytes st = some (r, st2) →
      r = .ok ∧ st2.writerOk = true ∧ ∃ k : Nat,
        writtenData st2.events = writtenData st.events ++
          (List.range' iter k).map (fun i => newLog i ++ "\n") ∧
        opt.Bytes ≤ bytes + ((List.range' iter k).map
          (fun i => ((newLog i).length : Int))).sum ∧
        ∀ j : Nat, j < k → bytes + ((List.range' iter j).map
          (fun i => ((newLog i).length : Int))).sum < opt.Bytes := by
  intro fuel
  induction fuel with
  | zero => intro iter bytes st r st2 h hb; simp [byteLoop] at hb
  | succ n ih =>
    intro iter bytes st r st2 h hb
    rw [byteLoop] at hb
    by_cases hlt : bytes < opt.Bytes
    · rw [if_pos hlt, if_pos h] at hb
      obtain ⟨h1, h2, k, hw, hge, hpre⟩ := ih (iter + 1) _ _ r st2
        (byteStep_writerOk newLog env opt iter _ st hopen h) hb
      refine ⟨h1, h2, k + 1, ?_, ?_, ?_⟩
      · rw [hw, byteStep_writtenData, List.range'_succ]
        simp
      · rw [List.range'_succ]
        simp only [List.map_cons, List.sum_cons]
        omega
      · intro j hj
        match j with
        | 0 => simpa using hlt
        | j0 + 1 =>
          have hp := hpre j0 (by omega)
          rw [List.range'_succ]
          simp only [List.map_cons, List.sum_cons]
          omega
    · rw [if_neg hlt] at hb
      obtain ⟨h1, h2⟩ := Prod.mk.injEq .. ▸ Option.some.injEq .. ▸ hb
      subst h1
      subst h2
      refine ⟨rfl, h, 0, by simp, by simpa using hlt, ?_⟩
      intro j hj
      exact absurd hj (Nat.not_lt_zero j)

/-- The byte-count loop never reads `option.Number`. -/
lemma byteLoop_number (newLog : Nat → String) (env : Env) (opt : GOption)
    (m : Int) :
    ∀ (fuel iter : Nat) (bytes : Int) (st : GenState),
      byteLoop newLog env { opt with Number := m } fuel iter bytes st =
        byteLoop newLog env opt fuel iter bytes st := by
  intro fuel
  induction fuel with
  | zero => intro iter bytes st; rfl
  | succ n ih =>
    intro iter bytes st
    rw [byteLoop, byteLoop]
    have eB : ({ opt with Number := m } : GOption).Bytes = opt.Bytes := rfl
    have eS : byteStep newLog env { opt with Number := m } =
        byteStep newLog env opt := rfl
    rw [eB, eS]
    by_cases hlt : bytes < opt.Bytes
    · rw [if_pos hlt, if_pos hlt]
      cases hw : st.writerOk <;> simp [hw, ih]
    · rw [if_neg hlt, if_neg hlt]

/-! ## Prologue and epilogue lemmas -/

@[simp] lemma initState_writerOk (env : Env) (opt : GOption) :
    (initState env opt).writerOk = openOk env opt.LogType 0 := rfl

@[simp] lemma initState_splitCount (env : Env) (opt : GOption) :
    (initState env opt).splitCount = 1 := rfl

@[simp] lemma initState_events (env : Env) (opt : GOption) :
    (initState env opt).events =
      [Event.openW opt.Output (openOk env opt.LogType 0)] := rfl

lemma allOkEnv_openErrs (t : String) : openErrs allOkEnv t 0 = false := by
  rw [openErrs]
  split <;> rfl

lemma allOkEnv_openOk (t : String)
    (hT : t = "stdout" ∨ t = "log" ∨ t = "gz") :
    ∀ k, openOk allOkEnv t k = true := by
  intro k
  rcases hT with h | h | h <;> simp [openOk, allOkEnv, h]

lemma finalize_spec (opt : GOption) (st : GenState) (h : st.writerOk = true) :
    (finalize opt st).1 = .ok ∧
    writtenData (finalize opt st).2 = writtenData st.events ∧
    (announces (finalize opt st).2).length = (announces st.events).length +
      (if opt.LogType = "stdout" then 0 else 1) := by
  rw [finalize]
  by_cases hT : opt.LogType = "stdout" <;> simp [hT, h]

/-- Unfolding of `Generate` in line-count mode when the loop ends
normally. -/
lemma Generate_line_eq (newLog : Nat → String) (env : Env) (fuel : Nat)
    (opt : GOption) (hne : openErrs env opt.LogType 0 = false)
    (hb : opt.Bytes = 0)
    (h1 : (lineLoop newLog env opt opt.Number.toNat 0 (initState env opt)).1
      = .ok) :
    Generate newLog env fuel opt = some (finalize opt
      (lineLoop newLog env opt opt.Number.toNat 0 (initState env opt)).2) := by
  rw [Generate, hne]
  rw [if_neg (by simp), if_pos hb]
  rcases hres : lineLoop newLog env opt opt.Number.toNat 0 (initState env opt)
    with ⟨r, stf⟩
  rw [hres] at h1
  simp at h1
  subst h1
  rfl

/-- Unfolding of `Generate` in byte-count mode when the loop ends
normally. -/
lemma Generate_byte_eq (newLog : Nat → String) (env : Env) (fuel : Nat)
    (opt : GOption) (hne : openErrs env opt.LogType 0 = false)
    (hb : ¬(opt.Bytes = 0)) (stf : GenState)
    (hres : byteLoop newLog env opt fuel 0 0 (initState env opt) =
      some (.ok, stf)) :
    Generate newLog env fuel opt = some (finalize opt stf) := by
  rw [Generate, hne]
  rw [if_neg (by simp), if_neg hb, hres]

/-- Any normally-ending run with type `"stdout"` ends in `ok` and its
trace has no close, no announcement, and only the initial open. -/
lemma stdout_run_spec (newLog : Nat → String) (env : Env) (fuel : Nat)
    (opt : GOption) (hT : opt.LogType = "stdout") (r : GenResult)
    (evs : List Event)
    (hgen : Generate newLog env fuel opt = some (r, evs)) :
    r = .ok ∧ announces evs = [] ∧ closes evs = [] ∧
      opens evs = [(opt.Output, true)] := by
  have ho : openOk env opt.LogType 0 = true := by rw [openOk, if_pos hT]
  have he : openErrs env opt.LogType 0 = false := by
    rw [openErrs, if_neg]
    rw [hT]
    rintro (h | h) <;> exact absurd h (by decide)
  by_cases hb : opt.Bytes = 0
  · obtain ⟨h1, h2, h3, h4, h5⟩ := lineLoop_stdout newLog env opt hT
      opt.Number.toNat 0 (initState env opt) (by simp [ho])
    have hg := Generate_line_eq newLog env fuel opt he hb h1
    rw [hg] at hgen
    have hfin : finalize opt
        (lineLoop newLog env opt opt.Number.toNat 0 (initState env opt)).2 =
        (.ok, (lineLoop newLog env opt opt.Number.toNat 0
          (initState env opt)).2.events) := by
      rw [finalize, if_pos hT]
    rw [hfin] at hgen
    obtain ⟨hr, hevs⟩ := (Prod.mk.injEq ..).mp (Option.some.inj hgen)
    subst hr
    subst hevs
    refine ⟨rfl, ?_, ?_, ?_⟩
    · rw [h3]; simp
    · rw [h4]; simp
    · rw [h5]; simp [ho]
  · rcases hres : byteLoop newLog env opt fuel 0 0 (initState env opt) with
      _ | ⟨r0, stf⟩
    · have hnone : Generate newLog env fuel opt = none := by
        rw [Generate, he]
        rw [if_neg (by simp), if_neg hb, hres]
      rw [hnone] at hgen
      exact absurd hgen (by simp)
    · obtain ⟨h1, h2, h3, h4, h5⟩ := byteLoop_stdout newLog env opt hT
        fuel 0 0 (initState env opt) r0 stf (by simp [ho]) hres
      subst h1
      have hg := Generate_byte_eq newLog env fuel opt he hb stf hres
      rw [hg] at hgen
      have hfin : finalize opt stf = (.ok, stf.events) := by
        rw [finalize, if_pos hT]
      rw [hfin] at hgen
      obtain ⟨hr, hevs⟩ := (Prod.mk.injEq ..).mp (Option.some.inj hgen)
      subst hr
      subst hevs
      refine ⟨rfl, ?_, ?_, ?_⟩
      · rw [h3]; simp
      · rw [h4]; simp
      · rw [h5]; simp [ho]

/-! ## The naming strategy against its declarative description -/

/-- Closed form of the backward scan: it yields the dot plus the already
scanned suffix exactly when a dot occurs before any separator. -/
lemma extAux_spec : ∀ (l acc : List Char),
    extAux l acc =
      if '.' ∈ l.takeWhile (fun c => c ≠ '/')
      then some ('.' :: ((l.takeWhile (fun c => c ≠ '.')).reverse ++ acc))
      else none := by
  intro l
  induction l with
  | nil => intro acc; simp [extAux]
  | cons c rest ih =>
    intro acc
    rw [extAux]
    by_cases hs : c = '/'
    · subst hs
      rw [if_pos rfl]
      simp
    · rw [if_neg hs]
      by_cases hd : c = '.'
      · subst hd
        rw [if_pos rfl]
        simp [List.takeWhile_cons, hs]
      · rw [if_neg hd, ih (c :: acc)]
        have hd2 : ¬('.' = c) := fun e => hd e.symm
        simp [List.takeWhile_cons, hs, hd, hd2, List.append_assoc]

/-- When a dot occurs before any separator, truncating the scan at the
separator does not change where the dot-truncation stops. -/
lemma takeWhile_dot_of_mem : ∀ (l : List Char),
    '.' ∈ l.takeWhile (fun c => c ≠ '/') →
    l.takeWhile (fun c => c ≠ '.') =
      (l.takeWhile (fun c => c ≠ '/')).takeWhile (fun c => c ≠ '.') := by
  intro l
  induction l with
  | nil => intro h; simp at h
  | cons c rest ih =>
    intro h
    by_cases hs : c = '/'
    · subst hs
      simp at h
    · by_cases hd : c = '.'
      · subst hd
        simp [List.takeWhile_cons, hs]
      · have hd2 : ¬('.' = c) := fun e => hd e.symm
        simp only [List.takeWhile_cons] at h ⊢
        simp [hs, hd, hd2] at h ⊢
        simpa using ih (by simpa using h)

/-- Function `filepath.Ext` as implemented agrees with its declarative
description. -/
lemma filepathExt_eq_specExt (p : String) : filepathExt p = specExt p := by
  rw [filepathExt, specExt, extAux_spec]
  by_cases h : '.' ∈ p.data.reverse.takeWhile (fun c => c ≠ '/')
  · rw [if_pos h]
    simp only [h, if_pos]
    rw [takeWhile_dot_of_mem _ h]
    simp
  · rw [if_neg h]
    simp only [h, if_neg]
    simp [h]

/-! ## Gzip writer bookkeeping -/

/-- Writing a list of chunks through the gzip layer buffers them all. -/
lemma foldl_writeGz (ss : List String) : ∀ w : GzWriter,
    ss.foldl GzWriter.writeGz w = { w with pending := w.pending ++ ss } := by
  induction ss with
  | nil => intro w; simp
  | cons s rest ih =>
    intro w
    simp only [List.foldl_cons, ih]
    simp [GzWriter.writeGz, List.append_assoc]

/-! ## Claims -/

/-- C2: with `targetBytes = 0` and line target `L ≥ 0`, the generation
loop ends normally and writes exactly `L` lines, each followed by a single
line terminator — and no line at all when `L = 0`. -/
theorem generate_line_count_exact (newLog : Nat → String) (fuel : Nat)
    (opt : GOption) (hb : opt.Bytes = 0) (hn : 0 ≤ opt.Number)
    (hT : opt.LogType = "stdout" ∨ opt.LogType = "log" ∨
      opt.LogType = "gz") :
    ∃ evs, Generate newLog allOkEnv fuel opt = some (.ok, evs) ∧
      writtenData evs = (List.range opt.Number.toNat).map
        (fun i => newLog i ++ "\n") := by
  have hopen := allOkEnv_openOk opt.LogType hT
  obtain ⟨h1, h2, h3⟩ := lineLoop_writes newLog allOkEnv opt hopen
    opt.Number.toNat 0 (initState allOkEnv opt) (by simp [hopen 0])
  have hg := Generate_line_eq newLog allOkEnv fuel opt
    (allOkEnv_openErrs _) hb h1
  obtain ⟨f1, f2, f3⟩ := finalize_spec opt _ h2
  refine ⟨(finalize opt
    (lineLoop newLog allOkEnv opt opt.Number.toNat 0
      (initState allOkEnv opt)).2).2, ?_, ?_⟩
  · rw [hg, ← f1]
  · rw [f2, h3]
    simp [List.range_eq_range']

/-- C1 (amended): in line-count mode with a file-backed type and split
threshold `T > 0`, the number of segment files announced is
`(L - 2) / T + 1` (natural division), not `ceil(L / T)`: the rollover
comparison uses the zero-based line index, so it fires one iteration later
than the accumulator rule the claim states. -/
theorem generate_split_file_count (newLog : Nat → String) (fuel : Nat)
    (opt : GOption) (hb : opt.Bytes = 0)
    (hT : opt.LogType = "log" ∨ opt.LogType = "gz")
    (hsb : 0 < opt.SplitBy) :
    announceCountOf (Generate newLog allOkEnv fuel opt) =
      (opt.Number.toNat - 2) / opt.SplitBy.toNat + 1 := by
  have hT3 : opt.LogType = "stdout" ∨ opt.LogType = "log" ∨
      opt.LogType = "gz" := Or.inr hT
  have hopen := allOkEnv_openOk opt.LogType hT3
  have hTne : opt.LogType ≠ "stdout" := by
    rcases hT with h | h <;> simp [h]
  have ht : 0 < opt.SplitBy.toNat := by omega
  have hsb2 : opt.SplitBy = (opt.SplitBy.toNat : Int) :=
    (Int.toNat_of_nonneg hsb.le).symm
  obtain ⟨h1, h2, h3⟩ := lineLoop_split newLog allOkEnv opt
    opt.SplitBy.toNat ht hsb2 hTne hopen
    opt.Number.toNat 0 (initState allOkEnv opt) (by simp [hopen 0])
    (by simp)
  have hg := Generate_line_eq newLog allOkEnv fuel opt
    (allOkEnv_openErrs _) hb h1
  obtain ⟨f1, f2, f3⟩ := finalize_spec opt _ h2
  rw [hg]
  have hc : announceCountOf (some (finalize opt
      (lineLoop newLog allOkEnv opt opt.Number.toNat 0
        (initState allOkEnv opt)).2)) =
      (announces (finalize opt
        (lineLoop newLog allOkEnv opt opt.Number.toNat 0
          (initState allOkEnv opt)).2).2).length := rfl
  rw [hc, f3, if_neg hTne]
  simp only [initState_events, announces_openW, List.length_nil,
    Nat.zero_add, Nat.zero_sub, Nat.zero_div, Nat.add_zero] at h3
  omega

/-- C3: with a positive byte target `B`, byte-count mode runs (the line
target is ignored): every produced line starts while the accumulator of
line lengths (terminators excluded) is still below `B`, and a normally
terminating run stops with the accumulator at `B` or more. -/
theorem generate_byte_count_target (newLog : Nat → String) (fuel : Nat)
    (opt : GOption) (hb : 0 < opt.Bytes)
    (hT : opt.LogType = "stdout" ∨ opt.LogType = "log" ∨
      opt.LogType = "gz")
    (r : GenResult) (evs : List Event)
    (hgen : Generate newLog allOkEnv fuel opt = some (r, evs)) :
    r = .ok ∧
    (∃ k : Nat, writtenData evs = (List.range k).map
        (fun i => newLog i ++ "\n") ∧
      opt.Bytes ≤ ((List.range k).map
        (fun i => ((newLog i).length : Int))).sum ∧
      ∀ j : Nat, j < k → ((List.range j).map
        (fun i => ((newLog i).length : Int))).sum < opt.Bytes) ∧
    ∀ m : Int, Generate newLog allOkEnv fuel { opt with Number := m } =
      Generate newLog allOkEnv fuel opt := by
  have hopen := allOkEnv_openOk opt.LogType hT
  have hbne : ¬(opt.Bytes = 0) := by omega
  have hnum : ∀ m : Int,
      Generate newLog allOkEnv fuel { opt with Number := m } =
        Generate newLog allOkEnv fuel opt := by
    intro m
    have e1 : ({ opt with Number := m } : GOption).LogType = opt.LogType :=
      rfl
    have e2 : ({ opt with Number := m } : GOption).Bytes = opt.Bytes := rfl
    have e3 : initState allOkEnv { opt with Number := m } =
      initState allOkEnv opt := rfl
    have e4 : finalize { opt with Number := m } = finalize opt :=
      funext fun st => rfl
    rw [Generate, Generate, e1, e2, e3, e4,
      byteLoop_number newLog allOkEnv opt m]
    rw [if_neg hbne, if_neg hbne]
  rcases hres : byteLoop newLog allOkEnv opt fuel 0 0
      (initState allOkEnv opt) with _ | ⟨r0, stf⟩
  · have hnone : Generate newLog allOkEnv fuel opt = none := by
      rw [Generate, allOkEnv_openErrs]
      rw [if_neg (by simp), if_neg hbne, hres]
    rw [hnone] at hgen
    exact absurd hgen (by simp)
  · obtain ⟨h1, h2, k, hw, hge, hpre⟩ := byteLoop_spec newLog allOkEnv opt
      hopen fuel 0 0 (initState allOkEnv opt) r0 stf (by simp [hopen 0])
      hres
    subst h1
    have hg := Generate_byte_eq newLog allOkEnv fuel opt
      (allOkEnv_openErrs _) hbne stf hres
    rw [hg] at hgen
    obtain ⟨f1, f2, f3⟩ := finalize_spec opt stf h2
    have hr : (finalize opt stf).1 = r :=
      congrArg Prod.fst (Option.some.inj hgen)
    have hevs : (finalize opt stf).2 = evs :=
      congrArg Prod.snd (Option.some.inj hgen)
    refine ⟨by rw [← hr, f1], ⟨k, ?_, ?_, ?_⟩, hnum⟩
    · rw [← hevs, f2, hw]
      simp [List.range_eq_range']
    · have := hge
      simp only [initState_events] at this
      simpa [List.range_eq_range'] using this
    · intro j hj
      have := hpre j hj
      simpa [List.range_eq_range'] using this

/-- A two-character line source, for concrete runs. -/
def nlAA : Nat → String := fun _ => "aa"

/-- Environment whose first `writer.Write` call fails. -/
def envFirstWriteFails : Env := ⟨fun _ => false, fun k => k == 0⟩

/-- Environment whose second `NewWriter` call (the first rollover reopen)
fails. -/
def envSecondOpenFails : Env := ⟨fun k => k == 1, fun _ => false⟩

/-- C1 (counterexample): a 3-line run with threshold 2 produces one
segment file, while `ceil(3 / 2) = 2`. -/
theorem generate_split_ceil_counterexample :
    announceCountOf (Generate nlAA allOkEnv 0
      ⟨"apache_common", "generated.log", "log", 3, 0, 2⟩) = 1 ∧
    (3 + 2 - 1) / 2 = 2 := by
  constructor
  · decide
  · decide

/-- C1 (witness): 5 lines, threshold 2, type `"log"`:
`(5 - 2) / 2 + 1 = 2` files are announced. -/
theorem generate_split_file_count_witness :
    announceCountOf (Generate nlAA allOkEnv 0
      ⟨"apache_common", "generated.log", "log", 5, 0, 2⟩) =
      ((5 : Int).toNat - 2) / (2 : Int).toNat + 1 :=
  generate_split_file_count nlAA 0
    ⟨"apache_common", "generated.log", "log", 5, 0, 2⟩ rfl (Or.inl rfl)
    (by decide)

/-- C2 (witness): a 2-line run on the console writes its two lines. -/
theorem generate_line_count_exact_witness :
    ∃ evs, Generate nlAA allOkEnv 0
      ⟨"apache_common", "generated.log", "stdout", 2, 0, 0⟩ =
        some (.ok, evs) ∧
      writtenData evs = ["aa\n", "aa\n"] := by
  obtain ⟨evs, hg, hw⟩ := generate_line_count_exact nlAA 0
    ⟨"apache_common", "generated.log", "stdout", 2, 0, 0⟩ rfl (by decide)
    (Or.inl rfl)
  refine ⟨evs, hg, ?_⟩
  rw [hw]
  decide

/-- C3 (witness): byte target 3 with 2-byte lines stops after two lines
and 4 accumulated bytes. -/
theorem generate_byte_count_target_witness :
    GenResult.ok = GenResult.ok ∧
    (∃ k : Nat, writtenData [Event.openW "g.log" true,
        Event.write "g.log" "aa\n" true, Event.write "g.log" "aa\n" true,
        Event.close "g.log", Event.announce "g.log"] =
        (List.range k).map (fun i => nlAA i ++ "\n") ∧
      (3 : Int) ≤ ((List.range k).map
        (fun i => ((nlAA i).length : Int))).sum ∧
      ∀ j : Nat, j < k → ((List.range j).map
        (fun i => ((nlAA i).length : Int))).sum < (3 : Int)) ∧
    ∀ m : Int, Generate nlAA allOkEnv 5
        { (⟨"apache_common", "g.log", "log", 0, 3, 0⟩ : GOption) with
          Number := m } =
      Generate nlAA allOkEnv 5 ⟨"apache_common", "g.log", "log", 0, 3, 0⟩ :=
  generate_byte_count_target nlAA 5 ⟨"apache_common", "g.log", "log", 0, 3, 0⟩
    (by decide) (Or.inr (Or.inl rfl)) .ok
    [Event.openW "g.log" true, Event.write "g.log" "aa\n" true,
     Event.write "g.log" "aa\n" true, Event.close "g.log",
     Event.announce "g.log"] (by decide)

/-- C4 (code_bug evaluation): a failed `writer.Write` is discarded — the
run carries on and ends in `ok` with no error; a failed rollover reopen is
discarded too (`writer, _ = NewWriter`) and the run then panics on the nil
writer instead of returning the error. -/
theorem generate_swallows_loop_errors :
    Generate nlAA envFirstWriteFails 0
      ⟨"apache_common", "g.log", "log", 2, 0, 0⟩ =
      some (.ok, [.openW "g.log" true, .write "g.log" "aa\n" false,
        .write "g.log" "aa\n" true, .close "g.log", .announce "g.log"]) ∧
    Generate nlAA envSecondOpenFails 0
      ⟨"apache_common", "g.log", "log", 4, 0, 1⟩ =
      some (.panicked, [.openW "g.log" true, .write "g.log" "aa\n" true,
        .write "g.log" "aa\n" true, .write "g.log" "aa\n" true,
        .close "g.log", .announce "g.log", .openW "g1.log" false]) := by
  constructor
  · decide
  · decide

/-- C5 (amended): the `"log"` writer opens read-write in append mode with
no create flag, so the open succeeds exactly when the file already exists
and is accessible — an absent file is not created. -/
theorem newWriter_log_append_no_create (n : String) :
    NewWriterCall "log" n = .openFileW n logOpenFlags 0o666 ∧
    logOpenFlags.rdwr = true ∧ logOpenFlags.append = true ∧
    logOpenFlags.create = false ∧
    (∀ cond : FileCond,
      openSucceeds cond logOpenFlags = true ↔ cond = .present) := by
  refine ⟨rfl, rfl, rfl, rfl, ?_⟩
  intro cond
  cases cond <;> simp [openSucceeds, logOpenFlags]

/-- C5 (counterexample): with the `"log"` flags, opening an absent path
fails even though the path is not inaccessible — the claimed
creation-when-absent does not happen. -/
theorem newWriter_log_absent_fails :
    openSucceeds FileCond.absent logOpenFlags = false ∧
      FileCond.absent ≠ FileCond.inaccessible := by
  decide

/-- C6 (amended): closing the gzip handle flushes every buffered chunk
into the underlying file (no data loss) and closes the compression layer,
but leaves the underlying descriptor open. -/
theorem gzip_close_flushes_layer_only (name : String) (ss : List String) :
    GzWriter.closeGz (ss.foldl GzWriter.writeGz (GzWriter.new name)) =
      { fd := { name := name, closed := false }, pending := [],
        flushed := ss, closed := true } := by
  rw [foldl_writeGz]
  simp [GzWriter.closeGz, GzWriter.new]

/-- C6 (counterexample): after closing a gzip handle with one buffered
chunk, the chunk is flushed and the gzip layer is closed, but the
underlying file descriptor is not. -/
theorem gzip_close_fd_left_open :
    (((GzWriter.new "generated.gz").writeGz "x").closeGz).fd.closed
      = false ∧
    (((GzWriter.new "generated.gz").writeGz "x").closeGz).closed = true ∧
    (((GzWriter.new "generated.gz").writeGz "x").closeGz).flushed
      = ["x"] :=
  ⟨rfl, rfl, rfl⟩

/-- C7: a run with type `"stdout"` ends in `ok`, announces no file,
closes nothing, and opens only the single initial destination — splitting
never triggers whatever the threshold is. -/
theorem generate_stdout_no_split (newLog : Nat → String) (env : Env)
    (fuel : Nat) (opt : GOption) (hT : opt.LogType = "stdout")
    (r : GenResult) (evs : List Event)
    (hgen : Generate newLog env fuel opt = some (r, evs)) :
    r = .ok ∧ announces evs = [] ∧ closes evs = [] ∧
      opens evs = [(opt.Output, true)] :=
  stdout_run_spec newLog env fuel opt hT r evs hgen

/-- C7 (witness): a 2-line console run with a positive threshold. -/
theorem generate_stdout_no_split_witness :
    GenResult.ok = GenResult.ok ∧
    announces [Event.openW "generated.log" true,
      Event.write "generated.log" "aa\n" true,
      Event.write "generated.log" "aa\n" true] = [] ∧
    closes [Event.openW "generated.log" true,
      Event.write "generated.log" "aa\n" true,
      Event.write "generated.log" "aa\n" true] = [] ∧
    opens [Event.openW "generated.log" true,
      Event.write "generated.log" "aa\n" true,
      Event.write "generated.log" "aa\n" true] = [("generated.log", true)] :=
  generate_stdout_no_split nlAA allOkEnv 0
    ⟨"apache_common", "generated.log", "stdout", 2, 0, 5⟩ rfl .ok
    [Event.openW "generated.log" true,
     Event.write "generated.log" "aa\n" true,
     Event.write "generated.log" "aa\n" true] (by decide)

/-- C8 (amended): the extension is taken from the last dot of the final
path element (the part after the last separator), not of the whole path;
with that reading the naming rule and its examples hold. -/
theorem split_name_ext_rule :
    (∀ (p : String) (n : Int), NewSplitFileName p n =
      trimSuffix p (specExt p) ++ toString n ++ specExt p) ∧
    NewSplitFileName "generated.log" 2 = "generated2.log" ∧
    NewSplitFileName "archive.tar.gz" 3 = "archive.tar3.gz" ∧
    NewSplitFileName "noext" 5 = "noext5" := by
  refine ⟨?_, by decide, by decide, by decide⟩
  intro p n
  rw [NewSplitFileName, filepathExt_eq_specExt]

/-- C8 (counterexample): on a path whose last dot sits in a directory
component, the code appends the index at the end (`filepath.Ext` stops at
the separator), not before the substring from the last dot of the whole
path. -/
theorem split_name_separator_counterexample :
    NewSplitFileName "a.b/c" 2 = "a.b/c2" ∧ "a.b/c2" ≠ "a2.b/c" := by
  constructor
  · decide
  · decide

/-- C9 (amended): `Generate` never closes a writer when the type is
`"stdout"`, but the handle it uses is the raw `os.Stdout` file — closing
that handle would really close the stream (it is no no-op wrapper). -/
theorem stdout_handle_close_closes (newLog : Nat → String) (env : Env)
    (fuel : Nat) (opt : GOption) (hT : opt.LogType = "stdout")
    (r : GenResult) (evs : List Event)
    (hgen : Generate newLog env fuel opt = some (r, evs)) :
    closes evs = [] ∧ NewWriterCall "stdout" opt.Output = .stdoutW ∧
      (FileDesc.closeFd stdoutFile).closed = true :=
  ⟨(stdout_run_spec newLog env fuel opt hT r evs hgen).2.2.1, rfl, rfl⟩

/-- C9 (witness): the concrete console run again. -/
theorem stdout_handle_close_closes_witness :
    closes [Event.openW "generated.log" true,
      Event.write "generated.log" "aa\n" true,
      Event.write "generated.log" "aa\n" true] = [] ∧
    NewWriterCall "stdout" "generated.log" = .stdoutW ∧
    (FileDesc.closeFd stdoutFile).closed = true :=
  stdout_handle_close_closes nlAA allOkEnv 0
    ⟨"apache_common", "generated.log", "stdout", 2, 0, 5⟩ rfl .ok
    [Event.openW "generated.log" true,
     Event.write "generated.log" "aa\n" true,
     Event.write "generated.log" "aa\n" true] (by decide)

/-- C9 (counterexample): closing the handle returned for `"stdout"` is
not a no-op: it marks the standard stream closed. -/
theorem stdout_close_not_noop :
    FileDesc.closeFd stdoutFile ≠ stdoutFile ∧
      (FileDesc.closeFd stdoutFile).closed = true := by
  decide

/-- C10: for any log type outside `{"stdout", "log", "gz"}` the factory
returns a nil writer with a nil error, and a run that proceeds panics on
its first write through the nil handle. -/
theorem newWriter_unknown_type_nil (t n : String) (h1 : t ≠ "stdout")
    (h2 : t ≠ "log") (h3 : t ≠ "gz") :
    NewWriterCall t n = .nilNil ∧
    Generate nlAA allOkEnv 0 ⟨"apache_common", n, t, 1, 0, 0⟩ =
      some (.panicked, [.openW n false]) := by
  have hlg : ¬(t = "log" ∨ t = "gz") := by
    rintro (h | h)
    · exact h2 h
    · exact h3 h
  have ho : openOk allOkEnv t 0 = false := by
    rw [openOk, if_neg h1, if_neg hlg]
  have he : openErrs allOkEnv t 0 = false := by
    rw [openErrs]
    split <;> rfl
  refine ⟨?_, ?_⟩
  · rw [NewWriterCall, if_neg h1, if_neg h2, if_neg h3]
  · rw [Generate]
    dsimp only
    rw [he]
    rw [if_neg (by simp), if_pos rfl]
    have hinit : initState allOkEnv ⟨"apache_common", n, t, 1, 0, 0⟩ =
        { splitCount := 1, logFileName := n, writerOk := false,
          openCalls := 1, writeCalls := 0,
          events := [.openW n false] } := by
      rw [initState]
      dsimp only
      rw [ho]
    rw [hinit]
    rfl

/-- C10 (witness): the type `"json"`. -/
theorem newWriter_unknown_type_nil_witness :
    NewWriterCall "json" "g.log" = .nilNil ∧
    Generate nlAA allOkEnv 0 ⟨"apache_common", "g.log", "json", 1, 0, 0⟩ =
      some (.panicked, [.openW "g.log" false]) :=
  newWriter_unknown_type_nil "json" "g.log" (by decide) (by decide)
    (by decide)

end Flog
